import Mathlib

/-!
# Verification of the birthday reminder application

A shallow embedding of `src/app.py` (a Flask birthday-board application) together
with proofs about its specified behaviour.  The embedding models:

* proleptic Gregorian calendar dates as used by Python's `datetime.date`
  (validity, tuple comparison, `replace(year=...)`, `toordinal` subtraction);
* the pure helper `calculate_birthday_details`;
* the ranking logic of the `index` route (`sorted` by days-left plus the
  minimum-tie subset);
* the `get_coords` geocoding helper and `generate_gemini_fun_facts`, with the
  outbound HTTP transports modelled as explicit oracle inputs;
* the `add`, `edit`, `delete` and `fun-facts` routes as functions from the
  persistent record store (a list of rows) and the request data to the new
  store and an HTTP-level outcome.

Fallible Python operations (constructor `ValueError`s, unhandled exceptions)
are modelled with `Option` / explicit error outcomes.
-/

namespace BirthdayApp

/-! ### Calendar dates: a model of Python `datetime.date`

`isLeap`, `daysInMonth`, `daysBeforeMonthCommon`, `daysBeforeYear` and
`toOrdinal` mirror CPython's `_is_leap`, `_days_in_month`,
`_DAYS_BEFORE_MONTH`, `_days_before_year` and `date.toordinal`. -/

def isLeap (y : Nat) : Bool :=
  y % 4 == 0 && (y % 100 != 0 || y % 400 == 0)

def daysInMonth (y m : Nat) : Nat :=
  if m = 2 then (if isLeap y then 29 else 28)
  else if m = 4 ∨ m = 6 ∨ m = 9 ∨ m = 11 then 30
  else 31

structure PyDate where
  year : Nat
  month : Nat
  day : Nat
deriving DecidableEq, Repr

/-- The argument checks of the `datetime.date` constructor
(`MINYEAR = 1`, `MAXYEAR = 9999`). -/
def PyDate.Valid (d : PyDate) : Prop :=
  1 ≤ d.year ∧ d.year ≤ 9999 ∧ 1 ≤ d.month ∧ d.month ≤ 12 ∧
    1 ≤ d.day ∧ d.day ≤ daysInMonth d.year d.month

instance (d : PyDate) : Decidable d.Valid := by
  unfold PyDate.Valid; exact inferInstance

/-- Cumulative days before each month in a non-leap year
(CPython `_DAYS_BEFORE_MONTH`). -/
def daysBeforeMonthCommon : Nat → Nat
  | 1 => 0
  | 2 => 31
  | 3 => 59
  | 4 => 90
  | 5 => 120
  | 6 => 151
  | 7 => 181
  | 8 => 212
  | 9 => 243
  | 10 => 273
  | 11 => 304
  | 12 => 334
  | _ => 365

def daysBeforeMonth (y m : Nat) : Nat :=
  daysBeforeMonthCommon m + (if 2 < m ∧ isLeap y then 1 else 0)

def daysBeforeYear (y : Nat) : Nat :=
  (y - 1) * 365 + (y - 1) / 4 - (y - 1) / 100 + (y - 1) / 400

/-- Python `date.toordinal()`: day number in the proleptic Gregorian
calendar, with 0001-01-01 mapped to 1.  `date` subtraction returns the
difference of ordinals as a day count. -/
def toOrdinal (d : PyDate) : Nat :=
  daysBeforeYear d.year + daysBeforeMonth d.year d.month + d.day

/-- Python `date` comparison: lexicographic on `(year, month, day)`. -/
def PyDate.lt (a b : PyDate) : Prop :=
  a.year < b.year ∨ (a.year = b.year ∧
    (a.month < b.month ∨ (a.month = b.month ∧ a.day < b.day)))

instance (a b : PyDate) : Decidable (a.lt b) := by
  unfold PyDate.lt; exact inferInstance

/-- Python `d.replace(year=y)`: re-runs the constructor checks on the new
field values and raises `ValueError` (here: `none`) if they fail, which
happens exactly for Feb 29 projected into a non-leap year or a year
outside `1..9999`. -/
def dateReplaceYear (d : PyDate) (y : Nat) : Option PyDate :=
  if PyDate.Valid ⟨y, d.month, d.day⟩ then some ⟨y, d.month, d.day⟩ else none

/-- `calculate_birthday_details` (src/app.py lines 69-76).  The unused local
`age` of line 70 does not affect the returned pair and is omitted.  A
`ValueError` escaping from either `replace` call is modelled as `none`. -/
def calculate_birthday_details (dob today : PyDate) : Option (Int × Int) :=
  match dateReplaceYear dob today.year with
  | none => none
  | some birthday_this_year =>
    match (if birthday_this_year.lt today
           then dateReplaceYear birthday_this_year (today.year + 1)
           else some birthday_this_year) with
    | none => none
    | some next_birthday_date =>
      some ((toOrdinal next_birthday_date : Int) - (toOrdinal today : Int),
            (next_birthday_date.year : Int) - (dob.year : Int))

/-- The Date Calculator algorithm exactly as §4.1 of the spec words it:
step 1 replaces the year of `birth_date` by `reference_date.year`; step 2
moves to the same month/day of the following year when that date is
strictly earlier than `reference_date`; step 3 takes `age_turning =
next.year - birth_date.year`; step 4 takes the whole-day difference.
Spec-side of the refinement for the Date Calculator claim. -/
def compute_spec (birth_date reference_date : PyDate) : Option (Int × Int) :=
  match dateReplaceYear birth_date reference_date.year with
  | none => none
  | some next0 =>
    match (if next0.lt reference_date
           then dateReplaceYear birth_date (reference_date.year + 1)
           else some next0) with
    | none => none
    | some next =>
      some ((toOrdinal next : Int) - (toOrdinal reference_date : Int),
            (next.year : Int) - (birth_date.year : Int))

/-- C1: `compute(birth_date, reference_date)` follows the specified
algorithm (year replacement, advance to next year only when strictly
earlier, `age_turning = next.year - birth_date.year`, whole-day
difference); when the reference date equals the birthday-this-year
exactly it yields `days = 0` and `age_turning = reference_date.year -
birth_date.year`; and the two worked examples hold:
`compute(2000-03-01, 2024-03-01) = (0, 24)` and
`compute(2000-03-01, 2024-02-01) = (29, 24)`. -/
theorem C1_date_calculator_follows_spec :
    (∀ b r : PyDate, calculate_birthday_details b r = compute_spec b r)
    ∧ (∀ b r : PyDate, dateReplaceYear b r.year = some r →
        calculate_birthday_details b r = some (0, (r.year : Int) - (b.year : Int)))
    ∧ calculate_birthday_details ⟨2000, 3, 1⟩ ⟨2024, 3, 1⟩ = some (0, 24)
    ∧ calculate_birthday_details ⟨2000, 3, 1⟩ ⟨2024, 2, 1⟩ = some (29, 24) := by
  refine ⟨?_, ?_, by decide, by decide⟩
  · intro b r
    unfold calculate_birthday_details compute_spec dateReplaceYear
    by_cases h : PyDate.Valid ⟨r.year, b.month, b.day⟩ <;> simp [h]
  · intro b r hrep
    obtain ⟨ry, rm, rd⟩ := r
    have hval : PyDate.Valid ⟨ry, b.month, b.day⟩ := by
      by_cases h : PyDate.Valid ⟨ry, b.month, b.day⟩
      · exact h
      · simp [dateReplaceYear, h] at hrep
    have hmd : b.month = rm ∧ b.day = rd := by
      have h2 := hrep
      simp [dateReplaceYear, hval, PyDate.mk.injEq] at h2
      exact h2
    obtain ⟨hm, hd⟩ := hmd
    subst hm; subst hd
    have hirr : ¬ PyDate.lt ⟨ry, b.month, b.day⟩ ⟨ry, b.month, b.day⟩ := by
      unfold PyDate.lt; omega
    simp [calculate_birthday_details, hrep, hirr]

/-- Witness for the edge-case conjunct of the Date Calculator theorem at
the concrete pair (2000-03-01, 2024-03-01). -/
theorem C1_date_calculator_follows_spec_witness :
    calculate_birthday_details ⟨2000, 3, 1⟩ ⟨2024, 3, 1⟩
      = some (0, (2024 : Int) - (2000 : Int)) :=
  C1_date_calculator_follows_spec.2.1 ⟨2000, 3, 1⟩ ⟨2024, 3, 1⟩ (by decide)

/-! ### Bounds on the calendar encoding -/

theorem dateReplaceYear_some {d : PyDate} {y : Nat} {e : PyDate}
    (h : dateReplaceYear d y = some e) :
    e = ⟨y, d.month, d.day⟩ ∧ PyDate.Valid ⟨y, d.month, d.day⟩ := by
  unfold dateReplaceYear at h
  by_cases hv : PyDate.Valid ⟨y, d.month, d.day⟩ <;> simp [hv] at h
  exact ⟨h.symm, hv⟩

theorem dayOfYear_bounds (y m d : Nat) (h : PyDate.Valid ⟨y, m, d⟩) :
    1 ≤ daysBeforeMonth y m + d ∧
      daysBeforeMonth y m + d ≤ 365 + (if isLeap y then 1 else 0) := by
  obtain ⟨-, -, hm1, hm2, hd1, hd2⟩ := h
  cases hl : isLeap y <;>
    (interval_cases m <;>
      simp_all [daysBeforeMonth, daysBeforeMonthCommon, daysInMonth] <;> omega)

theorem PyDate.valid_mk (y m d : Nat) :
    PyDate.Valid ⟨y, m, d⟩ ↔
      (1 ≤ y ∧ y ≤ 9999 ∧ 1 ≤ m ∧ m ≤ 12 ∧ 1 ≤ d ∧ d ≤ daysInMonth y m) :=
  Iff.rfl

set_option maxHeartbeats 1000000 in
theorem daysBeforeYear_succ (y : Nat) (hy : 1 ≤ y) :
    daysBeforeYear (y + 1) = daysBeforeYear y + 365 + (if isLeap y then 1 else 0) := by
  have hleap : (isLeap y = true) ↔ (y % 4 = 0 ∧ (¬ y % 100 = 0 ∨ y % 400 = 0)) := by
    simp [isLeap]
  unfold daysBeforeYear
  cases h : isLeap y <;> rw [h] at hleap <;> simp at hleap ⊢ <;> omega

theorem daysBeforeMonth_step (y m : Nat) (h1 : 1 ≤ m) (h2 : m ≤ 11) :
    daysBeforeMonth y m + daysInMonth y m = daysBeforeMonth y (m + 1) := by
  cases hl : isLeap y <;>
    (interval_cases m <;>
      simp [daysBeforeMonth, daysBeforeMonthCommon, daysInMonth, hl])

theorem daysBeforeMonth_mono (y m m' : Nat) (h1 : 1 ≤ m) (h2 : m < m')
    (h3 : m' ≤ 12) : daysBeforeMonth y m + daysInMonth y m ≤ daysBeforeMonth y m' := by
  induction m' with
  | zero => omega
  | succ k ih =>
    rcases Nat.lt_or_ge m k with hk | hk
    · calc daysBeforeMonth y m + daysInMonth y m ≤ daysBeforeMonth y k := ih hk (by omega)
      _ ≤ daysBeforeMonth y k + daysInMonth y k := Nat.le_add_right _ _
      _ = daysBeforeMonth y (k + 1) := daysBeforeMonth_step y k (by omega) (by omega)
    · have hmk : m = k := by omega
      subst hmk
      exact Nat.le_of_eq (daysBeforeMonth_step y m h1 (by omega))

theorem dayOfYear_lt_iff (y m1 d1 m2 d2 : Nat)
    (h1 : PyDate.Valid ⟨y, m1, d1⟩) (h2 : PyDate.Valid ⟨y, m2, d2⟩) :
    (m1 < m2 ∨ (m1 = m2 ∧ d1 < d2)) ↔
      daysBeforeMonth y m1 + d1 < daysBeforeMonth y m2 + d2 := by
  rw [PyDate.valid_mk] at h1 h2
  obtain ⟨-, -, hm1a, hm1b, hd1a, hd1b⟩ := h1
  obtain ⟨-, -, hm2a, hm2b, hd2a, hd2b⟩ := h2
  constructor
  · rintro (hm | ⟨rfl, hd⟩)
    · have hmono := daysBeforeMonth_mono y m1 m2 hm1a hm hm2b
      omega
    · omega
  · intro h
    rcases Nat.lt_trichotomy m1 m2 with hm | hm | hm
    · exact Or.inl hm
    · subst hm
      exact Or.inr ⟨rfl, by omega⟩
    · exfalso
      have hmono := daysBeforeMonth_mono y m2 m1 hm2a hm hm1b
      omega

theorem lt_iff_ordinal_of_same_year (y m1 d1 m2 d2 : Nat)
    (h1 : PyDate.Valid ⟨y, m1, d1⟩) (h2 : PyDate.Valid ⟨y, m2, d2⟩) :
    PyDate.lt ⟨y, m1, d1⟩ ⟨y, m2, d2⟩ ↔
      toOrdinal ⟨y, m1, d1⟩ < toOrdinal ⟨y, m2, d2⟩ := by
  have hiff := dayOfYear_lt_iff y m1 d1 m2 d2 h1 h2
  show (y < y ∨ (y = y ∧ (m1 < m2 ∨ (m1 = m2 ∧ d1 < d2)))) ↔
    daysBeforeYear y + daysBeforeMonth y m1 + d1 <
      daysBeforeYear y + daysBeforeMonth y m2 + d2
  omega

theorem leap_adjust (y m : Nat) :
    (if 2 < m ∧ isLeap (y + 1) then 1 else 0) + (if isLeap y then 1 else 0)
      ≤ 1 + (if 2 < m ∧ isLeap y then 1 else 0) := by
  by_cases h1 : isLeap y <;> by_cases h2 : isLeap (y + 1) <;>
    by_cases h3 : 2 < m <;> simp [h1, h2, h3]

theorem leap_indicator_le_one (y : Nat) : (if isLeap y then 1 else 0) ≤ 1 := by
  by_cases h : isLeap y <;> simp [h]

/-- C3 (amended): whenever `compute` returns a result on valid dates, the
returned `days_until_next_birthday` satisfies `0 ≤ days < 366`
unconditionally, and `age_turning ≥ 0` holds under the additional
hypothesis that the birth year is not after the reference year (the
original unconditional claim about `age_turning` fails for birth dates
lying in the future of the reference date). -/
theorem C3_result_bounds (dob today : PyDate) (hvd : dob.Valid)
    (hvt : today.Valid) (d a : Int)
    (h : calculate_birthday_details dob today = some (d, a)) :
    0 ≤ d ∧ d < 366 ∧ (dob.year ≤ today.year → 0 ≤ a) := by
  obtain ⟨ty, tm, td⟩ := today
  show 0 ≤ d ∧ d < 366 ∧ (dob.year ≤ ty → 0 ≤ a)
  have hty1 : 1 ≤ ty := hvt.1
  unfold calculate_birthday_details at h
  rcases hrep : dateReplaceYear dob ty with _ | bty
  · rw [hrep] at h
    simp at h
  rw [hrep] at h
  obtain ⟨hbty, hbval⟩ := dateReplaceYear_some hrep
  subst hbty
  dsimp only at h
  have hb1 := dayOfYear_bounds ty dob.month dob.day hbval
  have hb2 := dayOfYear_bounds ty tm td hvt
  have hle1 := leap_indicator_le_one ty
  by_cases hlt : PyDate.lt ⟨ty, dob.month, dob.day⟩ ⟨ty, tm, td⟩
  · rw [if_pos hlt] at h
    rcases hrep2 : dateReplaceYear ⟨ty, dob.month, dob.day⟩ (ty + 1) with _ | nxt
    · rw [hrep2] at h
      simp at h
    rw [hrep2] at h
    obtain ⟨hnxt, hnval⟩ := dateReplaceYear_some hrep2
    subst hnxt
    simp only [Option.some.injEq, Prod.mk.injEq] at h
    obtain ⟨hd, ha⟩ := h
    have hord := (lt_iff_ordinal_of_same_year ty dob.month dob.day tm td
      hbval hvt).mp hlt
    have hb3 := dayOfYear_bounds (ty + 1) dob.month dob.day hnval
    have hstep := daysBeforeYear_succ ty hty1
    have hadj := leap_adjust ty dob.month
    have e1 : toOrdinal ⟨ty + 1, dob.month, dob.day⟩
        = daysBeforeYear (ty + 1) + daysBeforeMonth (ty + 1) dob.month + dob.day := rfl
    have e2 : toOrdinal ⟨ty, tm, td⟩
        = daysBeforeYear ty + daysBeforeMonth ty tm + td := rfl
    have e3 : toOrdinal ⟨ty, dob.month, dob.day⟩
        = daysBeforeYear ty + daysBeforeMonth ty dob.month + dob.day := rfl
    have e4 : daysBeforeMonth (ty + 1) dob.month
        = daysBeforeMonthCommon dob.month
          + (if 2 < dob.month ∧ isLeap (ty + 1) then 1 else 0) := rfl
    have e5 : daysBeforeMonth ty dob.month
        = daysBeforeMonthCommon dob.month
          + (if 2 < dob.month ∧ isLeap ty then 1 else 0) := rfl
    rw [e1, e2, e4] at hd
    rw [e3, e2, e5] at hord
    rw [e5] at hb1
    rw [e4] at hb3
    omega
  · rw [if_neg hlt] at h
    simp only [Option.some.injEq, Prod.mk.injEq] at h
    obtain ⟨hd, ha⟩ := h
    have hord : ¬ (toOrdinal ⟨ty, dob.month, dob.day⟩ < toOrdinal ⟨ty, tm, td⟩) :=
      fun hc => hlt ((lt_iff_ordinal_of_same_year ty dob.month dob.day tm td
        hbval hvt).mpr hc)
    have e2 : toOrdinal ⟨ty, tm, td⟩
        = daysBeforeYear ty + daysBeforeMonth ty tm + td := rfl
    have e3 : toOrdinal ⟨ty, dob.month, dob.day⟩
        = daysBeforeYear ty + daysBeforeMonth ty dob.month + dob.day := rfl
    rw [e3, e2] at hd hord
    omega

/-- Witness for the corrected bounds theorem at
`compute(2000-03-01, 2024-02-01) = (29, 24)`. -/
theorem C3_result_bounds_witness :
    (0 : Int) ≤ 29 ∧ (29 : Int) < 366 ∧ ((2000 : Nat) ≤ 2024 → (0 : Int) ≤ 24) :=
  C3_result_bounds ⟨2000, 3, 1⟩ ⟨2024, 2, 1⟩ (by decide) (by decide)
    29 24 (by decide)

/-- Counterexample to C3 as frozen: for the valid pair with birth date
2030-05-05 and reference date 2024-03-01 (a birth date in the future of
the reference date), `compute` does return a result, but its
`age_turning` component is `-6 < 0`. -/
theorem C3_counterexample :
    PyDate.Valid ⟨2030, 5, 5⟩ ∧ PyDate.Valid ⟨2024, 3, 1⟩ ∧
      calculate_birthday_details ⟨2030, 5, 5⟩ ⟨2024, 3, 1⟩ = some (65, -6) ∧
      (-6 : Int) < 0 := by
  refine ⟨by decide, by decide, by decide, by decide⟩

/-- C4: for a February 29 birth date and a reference date in a non-leap
year, the step-1 year replacement fails and `compute` errors out
(returns `none`) instead of producing a pair; in particular no clamping
to Feb 28 or Mar 1 happens. -/
theorem C4_feb29_nonleap_errors (dob today : PyDate)
    (hm : dob.month = 2) (hd : dob.day = 29)
    (hleap : isLeap today.year = false) :
    dateReplaceYear dob today.year = none
    ∧ calculate_birthday_details dob today = none
    ∧ ∀ p : Int × Int, calculate_birthday_details dob today ≠ some p := by
  have hnv : ¬ PyDate.Valid ⟨today.year, dob.month, dob.day⟩ := by
    rw [hm, hd, PyDate.valid_mk]
    intro hc
    have h29 : (29 : Nat) ≤ daysInMonth today.year 2 := hc.2.2.2.2.2
    rw [show daysInMonth today.year 2 = if isLeap today.year then 29 else 28
      from rfl, hleap] at h29
    simp at h29
  have hrep : dateReplaceYear dob today.year = none := by
    unfold dateReplaceYear
    rw [if_neg hnv]
  have hcalc : calculate_birthday_details dob today = none := by
    unfold calculate_birthday_details
    rw [hrep]
  exact ⟨hrep, hcalc, fun p hp => by rw [hcalc] at hp; exact Option.noConfusion hp⟩

/-- Witness for the Feb 29 failure theorem: a person born 2000-02-29
viewed from 2023-06-15 (2023 is not a leap year). -/
theorem C4_feb29_nonleap_errors_witness :
    dateReplaceYear ⟨2000, 2, 29⟩ (2023 : Nat) = none
    ∧ calculate_birthday_details ⟨2000, 2, 29⟩ ⟨2023, 6, 15⟩ = none
    ∧ ∀ p : Int × Int, calculate_birthday_details ⟨2000, 2, 29⟩ ⟨2023, 6, 15⟩ ≠ some p :=
  C4_feb29_nonleap_errors ⟨2000, 2, 29⟩ ⟨2023, 6, 15⟩ rfl rfl (by decide)

/-! ### Data model (src/app.py lines 39-54)

`latitude`/`longitude` are SQL floats in the source; their numeric values
never influence any control flow, so coordinates are carried as opaque
`Int` tokens here. -/

structure Birthday where
  id : Nat
  name : String
  dob : PyDate
  tob : String
  pob : String
  notes : String
  latitude : Option Int
  longitude : Option Int
  user_id : Nat
deriving DecidableEq, Repr

structure User where
  id : Nat
  email : String
deriving DecidableEq, Repr

def ADMIN_EMAIL : String := "jithesh882006@gmail.com"

/-! ### Geocoding client (src/app.py lines 61-67) -/

/-- Outcome of the outbound Nominatim HTTP call, supplied as an oracle
input: either the transport raises `requests.RequestException`, or it
returns the parsed JSON hit list, each hit carrying a coordinate pair. -/
inductive GeocodeResponse where
  | failure
  | success (hits : List (Int × Int))
deriving DecidableEq, Repr

/-- The value a call to `get_coords` evaluates to, as seen by callers:
either a genuine pair `(lat, lon)` (components possibly `None`), or the
bare `None` produced when the function falls off its end. -/
inductive GeoResult where
  | bareNone
  | pair (lat lon : Option Int)
deriving DecidableEq, Repr

/-- `get_coords` (src/app.py lines 61-67), mirroring its control flow:
falsy place name → `return None, None`; transport failure → caught, then
`return None, None`; non-empty hit list → first hit's coordinates; empty
hit list → no `return` statement runs, so the call evaluates to a bare
`None`. -/
def get_coords (place_name : String) (resp : GeocodeResponse) : GeoResult :=
  if place_name = "" then .pair none none
  else
    match resp with
    | .failure => .pair none none
    | .success [] => .bareNone
    | .success (h :: _) => .pair (some h.1) (some h.2)

/-! ### Fact-generation client (src/app.py lines 78-103)

Python string primitives are re-implemented over `List Char` so that they
compute inside the kernel. -/

/-- The whitespace class stripped by Python `str.strip()` (ASCII part). -/
def isPySpace (c : Char) : Bool :=
  c == ' ' || c == '\t' || c == '\n' || c == '\r' || c == '\x0b' || c == '\x0c'

def pyStripChars (s : List Char) : List Char :=
  ((s.dropWhile isPySpace).reverse.dropWhile isPySpace).reverse

/-- Python `s.strip()`. -/
def pyStrip (s : String) : String := String.mk (pyStripChars s.data)

/-- Python `s.split('||')`: cut at non-overlapping occurrences of the
two-character delimiter, scanning left to right; splitting the empty
string yields `[""]`. -/
def splitOnPipes : List Char → List (List Char)
  | [] => [[]]
  | '|' :: '|' :: rest => [] :: splitOnPipes rest
  | c :: rest =>
    match splitOnPipes rest with
    | [] => [[c]]
    | seg :: segs => (c :: seg) :: segs

def pySplitPipes (s : String) : List String := (splitOnPipes s.data).map String.mk

def GEMINI_PLACEHOLDER_NO_TOB : String :=
  "Provide a time of birth to generate fun facts!"

def GEMINI_PLACEHOLDER_FAILED : String :=
  "Could not generate fun facts at this time."

/-- Outcome of `model.generate_content(prompt)`: an exception, or a reply
whose `.text` is free text. -/
inductive GeminiResponse where
  | failure
  | success (text : String)
deriving DecidableEq, Repr

/-- `generate_gemini_fun_facts` (src/app.py lines 78-103).
`model_configured` is whether the module-level Gemini client was set up
(lines 28-33); an empty `tob` models a falsy time of birth; `resp` is the
oracle for the API call.  The birth date and place arguments only feed
the prompt text, which cannot influence the parsed result, so they are
not carried here.  Line 98 builds
`[fact.strip() for fact in response.text.strip().split('||') if fact.strip()]`,
i.e. strip the reply, split on `'||'`, strip every segment and drop the
segments that strip to empty. -/
def generate_gemini_fun_facts (model_configured : Bool) (tob : String)
    (resp : GeminiResponse) : List String :=
  if !model_configured || tob = "" then [GEMINI_PLACEHOLDER_NO_TOB]
  else
    match resp with
    | .failure => [GEMINI_PLACEHOLDER_FAILED]
    | .success text =>
      if text ≠ "" then
        ((pySplitPipes (pyStrip text)).map pyStrip).filter (fun f => f ≠ "")
      else [GEMINI_PLACEHOLDER_FAILED]

/-! ### Date-string parsing (`datetime.strptime(..., '%Y-%m-%d').date()`) -/

def digitsVal (cs : List Char) : Nat :=
  cs.foldl (fun n c => n * 10 + (c.toNat - 48)) 0

/-- `datetime.strptime(s, '%Y-%m-%d').date()`: three dash-separated
digit groups (`%Y` exactly four digits, `%m`/`%d` one or two) that must
form a valid calendar date; any other input raises `ValueError`,
modelled as `none`. -/
def parseDate (s : String) : Option PyDate :=
  match s.data.splitOn '-' with
  | [ys, ms, ds] =>
    if ys.length = 4 ∧ 1 ≤ ms.length ∧ ms.length ≤ 2 ∧ 1 ≤ ds.length ∧ ds.length ≤ 2
        ∧ (ys ++ ms ++ ds).all Char.isDigit then
      if PyDate.Valid ⟨digitsVal ys, digitsVal ms, digitsVal ds⟩ then
        some ⟨digitsVal ys, digitsVal ms, digitsVal ds⟩
      else none
    else none
  | _ => none

/-! ### HTTP routes (src/app.py lines 142-207)

A route is a function from the committed record-store state and the
request data to the new store state and an HTTP-level outcome.  A Python
exception escaping the handler aborts the request with an HTTP 500 and
the transaction is discarded, leaving the committed store unchanged. -/

structure BirthdayForm where
  name : String
  dob : String
  tob : String
  pob : String
  notes : String
deriving DecidableEq, Repr

inductive RouteResponse where
  | notFound
  | errorRedirect (msg : String)
  | successRedirect (msg : String)
  | renderForm
  | renderFunFacts (facts : List String)
  | serverError
deriving DecidableEq, Repr

/-- POST handler of `/add` (lines 158-169): one-record-per-account check
(bypassed for the admin email), then geocoding, then record construction
(whose `dob` keyword argument runs `strptime`), then commit.  `new_id` is
the fresh primary key the insert receives. -/
def add_birthday (store : List Birthday) (current_user : User)
    (form : BirthdayForm) (geo : GeocodeResponse) (new_id : Nat) :
    List Birthday × RouteResponse :=
  if current_user.email ≠ ADMIN_EMAIL ∧
      (store.find? (fun b => b.user_id == current_user.id)).isSome then
    (store, .errorRedirect "You can only add one birthday to the board per account.")
  else
    match get_coords form.pob geo with
    | .bareNone => (store, .serverError)
    | .pair lat lon =>
      match parseDate form.dob with
      | none => (store, .serverError)
      | some dob =>
        (store ++ [⟨new_id, form.name, dob, form.tob, form.pob, form.notes,
            lat, lon, current_user.id⟩],
         .successRedirect ("🎉 Birthday for " ++ form.name ++ " added!"))

/-- `/edit/<id>` (lines 182-196).  `form? = none` models a GET request.
Ownership is `birthday_to_edit.creator != current_user`, i.e. comparison
of the owning user row, modelled by `user_id`.  On a POST, line 190 runs
`strptime` (possible `ValueError`) and line 192 unpacks `get_coords`
(possible `TypeError`); either crash discards the uncommitted
transaction. -/
def edit (store : List Birthday) (current_user : User) (id : Nat)
    (form? : Option BirthdayForm) (geo : GeocodeResponse) :
    List Birthday × RouteResponse :=
  match store.find? (fun b => b.id == id) with
  | none => (store, .notFound)
  | some b =>
    if b.user_id ≠ current_user.id ∧ current_user.email ≠ ADMIN_EMAIL then
      (store, .errorRedirect "You can only edit birthdays that you have added.")
    else
      match form? with
      | none => (store, .renderForm)
      | some form =>
        match parseDate form.dob with
        | none => (store, .serverError)
        | some dob =>
          match get_coords form.pob geo with
          | .bareNone => (store, .serverError)
          | .pair lat lon =>
            (store.map (fun r => if r.id == b.id then
                { r with name := form.name, dob := dob, tob := form.tob,
                         pob := form.pob, notes := form.notes,
                         latitude := lat, longitude := lon } else r),
             .successRedirect ("✅ Updated " ++ form.name ++ "'s birthday!"))

/-- `/delete/<id>` (lines 198-207). -/
def delete (store : List Birthday) (current_user : User) (id : Nat) :
    List Birthday × RouteResponse :=
  match store.find? (fun b => b.id == id) with
  | none => (store, .notFound)
  | some b =>
    if b.user_id ≠ current_user.id ∧ current_user.email ≠ ADMIN_EMAIL then
      (store, .errorRedirect "You can only delete birthdays that you have added.")
    else
      (store.eraseP (fun r => r.id == b.id),
       .successRedirect ("🗑️ Deleted " ++ b.name ++ "'s birthday"))

/-- `/fun-facts/<id>` (lines 172-180). -/
def fun_facts (store : List Birthday) (current_user : User) (id : Nat)
    (model_configured : Bool) (gemini : GeminiResponse) : RouteResponse :=
  match store.find? (fun b => b.id == id) with
  | none => .notFound
  | some b =>
    if b.user_id ≠ current_user.id ∧ current_user.email ≠ ADMIN_EMAIL then
      .errorRedirect "You can only view fun facts for birthdays you have added."
    else
      .renderFunFacts (generate_gemini_fun_facts model_configured b.tob gemini)

/-! ### Ranking Selector (index route, lines 146-152) -/

/-- Python's `sorted(entries, key=lambda x: x['days_left'])` on the
board entries: `sorted` is the stable ascending sort by the key, which
is exactly insertion sort by the key relation (stable sorting functions
are extensionally unique). -/
def pySortedByDaysLeft {α : Type} (l : List (α × Int)) : List (α × Int) :=
  l.insertionSort (fun x y => x.2 ≤ y.2)

/-- Lines 149-152: `min_days_left = sorted_birthdays[0]['days_left']`
when the sorted list is non-empty, then the comprehension keeps the
entries of the sorted list whose days-left equals that minimum. -/
def upcomingBirthdays {α : Type} (l : List (α × Int)) : List (α × Int) :=
  match pySortedByDaysLeft l with
  | [] => []
  | m :: _ => (pySortedByDaysLeft l).filter (fun x => x.2 == m.2)

/-- A concrete board record used by the worked examples. -/
def exampleRecord (i : Nat) : Birthday :=
  ⟨i, "person", ⟨2000, 1, 1⟩, "", "", "", none, none, i⟩

theorem pySorted_sorted {α : Type} (l : List (α × Int)) :
    (pySortedByDaysLeft l).Pairwise (fun x y => x.2 ≤ y.2) := by
  haveI : IsTotal (α × Int) (fun x y => x.2 ≤ y.2) := ⟨fun a b => le_total a.2 b.2⟩
  haveI : IsTrans (α × Int) (fun x y => x.2 ≤ y.2) := ⟨fun a b c h1 h2 => le_trans h1 h2⟩
  exact List.sorted_insertionSort _ l

/-- Stability of the board sort: for every key value, the entries holding
that key appear in the sorted output exactly as they appear in the input
(this packages both stability and the permutation property). -/
theorem pySorted_filter_key {α : Type} (l : List (α × Int)) (k : Int) :
    (pySortedByDaysLeft l).filter (fun x => x.2 == k)
      = l.filter (fun x => x.2 == k) := by
  have hall : ∀ x ∈ l.filter (fun x : α × Int => x.2 == k), x.2 = k := by
    intro x hx
    simpa using (List.mem_filter.mp hx).2
  have hpair : (l.filter (fun x : α × Int => x.2 == k)).Pairwise
      (fun x y : α × Int => x.2 ≤ y.2) :=
    List.pairwise_of_forall_mem_list fun a ha b hb => by
      rw [hall a ha, hall b hb]
  have hsub2 : (l.filter (fun x : α × Int => x.2 == k)).Sublist (pySortedByDaysLeft l) :=
    List.sublist_insertionSort hpair (List.filter_sublist l)
  have hidem : (l.filter (fun x : α × Int => x.2 == k)).filter (fun x => x.2 == k)
      = l.filter (fun x : α × Int => x.2 == k) :=
    List.filter_eq_self.mpr fun a ha => (List.mem_filter.mp ha).2
  have hfs : (l.filter (fun x : α × Int => x.2 == k)).Sublist
      ((pySortedByDaysLeft l).filter (fun x => x.2 == k)) := by
    have := List.Sublist.filter (fun x : α × Int => x.2 == k) hsub2
    rwa [hidem] at this
  have hperm : ((pySortedByDaysLeft l).filter (fun x => x.2 == k)).Perm
      (l.filter (fun x : α × Int => x.2 == k)) :=
    (List.perm_insertionSort _ l).filter _
  exact (hfs.eq_of_length hperm.length_eq.symm).symm

/-- C2: the Ranking Selector sorts ascending by days-left with ties in
input order (stable), and selects exactly the entries tied for the
minimum days-left, the selection being empty on empty input; on the
days-left values `[5, 0, 0, 3]` the sorted order is `[0, 0, 3, 5]` and
the minimum subset holds both `0`-valued entries. -/
theorem C2_ranking_selector :
    (∀ (α : Type) (l : List (α × Int)),
        (pySortedByDaysLeft l).Pairwise (fun x y => x.2 ≤ y.2))
    ∧ (∀ (α : Type) (l : List (α × Int)) (k : Int),
        (pySortedByDaysLeft l).filter (fun x => x.2 == k)
          = l.filter (fun x => x.2 == k))
    ∧ (∀ α : Type, upcomingBirthdays ([] : List (α × Int)) = [])
    ∧ (∀ (α : Type) (l : List (α × Int)), l ≠ [] →
        ∃ m : Int, (∃ x ∈ l, x.2 = m) ∧ (∀ x ∈ l, m ≤ x.2) ∧
          upcomingBirthdays l = l.filter (fun x => x.2 == m))
    ∧ pySortedByDaysLeft [(exampleRecord 1, 5), (exampleRecord 2, 0),
          (exampleRecord 3, 0), (exampleRecord 4, 3)]
        = [(exampleRecord 2, 0), (exampleRecord 3, 0),
           (exampleRecord 4, 3), (exampleRecord 1, 5)]
    ∧ upcomingBirthdays [(exampleRecord 1, 5), (exampleRecord 2, 0),
          (exampleRecord 3, 0), (exampleRecord 4, 3)]
        = [(exampleRecord 2, 0), (exampleRecord 3, 0)] := by
  refine ⟨fun α l => pySorted_sorted l, fun α l k => pySorted_filter_key l k,
    fun α => rfl, ?_, by decide, by decide⟩
  intro α l hne
  have hperm := List.perm_insertionSort (fun x y : α × Int => x.2 ≤ y.2) l
  have hs := pySorted_sorted l
  rcases hsort : pySortedByDaysLeft l with _ | ⟨hd, tl⟩
  · exfalso
    have hlen : (pySortedByDaysLeft l).length = l.length := hperm.length_eq
    rw [hsort] at hlen
    exact hne (List.length_eq_zero.mp hlen.symm)
  · have hmem : hd ∈ pySortedByDaysLeft l := by
      rw [hsort]; exact List.mem_cons_self _ _
    have hst := pySorted_filter_key l hd.2
    refine ⟨hd.2, ⟨hd, hperm.mem_iff.mp hmem, rfl⟩, ?_, ?_⟩
    · intro x hx
      have hxs : x ∈ pySortedByDaysLeft l := hperm.mem_iff.mpr hx
      rw [hsort] at hxs
      rcases List.mem_cons.mp hxs with h | h
      · rw [h]
      · rw [hsort] at hs
        exact List.rel_of_pairwise_cons hs h
    · simp only [upcomingBirthdays, hsort]
      rw [hsort] at hst
      exact hst

/-- Witness for the nonemptiness-hypothesis conjunct of the Ranking
Selector theorem, at the worked four-record board. -/
theorem C2_ranking_selector_witness :
    ∃ m : Int,
      (∃ x ∈ [(exampleRecord 1, (5 : Int)), (exampleRecord 2, 0),
          (exampleRecord 3, 0), (exampleRecord 4, 3)], x.2 = m) ∧
      (∀ x ∈ [(exampleRecord 1, (5 : Int)), (exampleRecord 2, 0),
          (exampleRecord 3, 0), (exampleRecord 4, 3)], m ≤ x.2) ∧
      upcomingBirthdays [(exampleRecord 1, (5 : Int)), (exampleRecord 2, 0),
          (exampleRecord 3, 0), (exampleRecord 4, 3)]
        = [(exampleRecord 1, (5 : Int)), (exampleRecord 2, 0),
            (exampleRecord 3, 0), (exampleRecord 4, 3)].filter (fun x => x.2 == m) :=
  C2_ranking_selector.2.2.2.1 Birthday
    [(exampleRecord 1, 5), (exampleRecord 2, 0), (exampleRecord 3, 0),
      (exampleRecord 4, 3)] (by decide)

/-- C5: `get_coords` returns the first hit's coordinates on a non-empty
result and `(None, None)` on falsy input or transport failure, but on a
successful lookup with an empty hit list it falls off the end of the
function and evaluates to a bare `None` — not a pair — so the claim
"in every case the result is a pair" fails there (callers unpacking
`lat, lon = get_coords(...)` then raise `TypeError`). -/
theorem C5_empty_result_is_not_a_pair :
    get_coords "Atlantis" (.success []) = .bareNone
    ∧ (∀ lat lon : Option Int, GeoResult.bareNone ≠ GeoResult.pair lat lon)
    ∧ get_coords "" (.success []) = .pair none none
    ∧ get_coords "Atlantis" .failure = .pair none none
    ∧ get_coords "Atlantis" (.success [(7, 9)]) = .pair (some 7) (some 9) := by
  exact ⟨rfl, fun lat lon h => GeoResult.noConfusion h, rfl, rfl, rfl⟩

/-- Counterexample to C9 as frozen: with the client configured, a time of
birth present and the call succeeding with an empty reply, the code
returns the failure placeholder instead of the (empty) sequence that
splitting the reply on the delimiter and discarding empty segments
yields. -/
theorem C9_counterexample :
    generate_gemini_fun_facts true "10:30 AM" (.success "")
        = [GEMINI_PLACEHOLDER_FAILED]
    ∧ ((pySplitPipes (pyStrip "")).map pyStrip).filter (fun f => f ≠ "") = []
    ∧ "10:30 AM" ≠ ""
    ∧ [GEMINI_PLACEHOLDER_FAILED] ≠ ([] : List String) := by
  refine ⟨by decide, by decide, by decide, by decide⟩

/-- C9 (amended): the Fact-Generation Client returns a single placeholder
string when the client is unconfigured or the time of birth is absent,
a single (different) placeholder string when the call fails or the call
succeeds with an empty reply, and otherwise parses the reply by
splitting on the fixed `'||'` delimiter, trimming segments and
discarding the empty ones, in order. -/
theorem C9_fact_client_behavior :
    (∀ (tob : String) (resp : GeminiResponse),
        generate_gemini_fun_facts false tob resp = [GEMINI_PLACEHOLDER_NO_TOB])
    ∧ (∀ (cfg : Bool) (resp : GeminiResponse),
        generate_gemini_fun_facts cfg "" resp = [GEMINI_PLACEHOLDER_NO_TOB])
    ∧ (∀ tob : String, tob ≠ "" →
        generate_gemini_fun_facts true tob .failure = [GEMINI_PLACEHOLDER_FAILED])
    ∧ (∀ tob : String, tob ≠ "" →
        generate_gemini_fun_facts true tob (.success "") = [GEMINI_PLACEHOLDER_FAILED])
    ∧ (∀ (tob text : String), tob ≠ "" → text ≠ "" →
        generate_gemini_fun_facts true tob (.success text)
          = ((pySplitPipes (pyStrip text)).map pyStrip).filter (fun f => f ≠ "")) := by
  refine ⟨?_, ?_, ?_, ?_, ?_⟩ <;> (intros; simp_all [generate_gemini_fun_facts])

/-- Witness for the fact-client behaviour theorem on a two-fact reply. -/
theorem C9_fact_client_behavior_witness :
    generate_gemini_fun_facts true "10:30 AM" (.success " One fact. || Another fact. ")
      = ((pySplitPipes (pyStrip " One fact. || Another fact. ")).map pyStrip).filter
          (fun f => f ≠ "") :=
  C9_fact_client_behavior.2.2.2.2 "10:30 AM" " One fact. || Another fact. "
    (by decide) (by decide)

/-- C6: an authenticated user who neither owns the record nor is the
admin gets an error flash and a redirect to the board from both
`/edit/<id>` and `/delete/<id>`, and the store — hence the record and
all its fields — is unchanged. -/
theorem C6_unauthorized_mutation_rejected (store : List Birthday) (user : User)
    (rid : Nat) (b : Birthday)
    (hfind : store.find? (fun r => r.id == rid) = some b)
    (howner : b.user_id ≠ user.id) (hadmin : user.email ≠ ADMIN_EMAIL)
    (form? : Option BirthdayForm) (geo : GeocodeResponse) :
    edit store user rid form? geo
        = (store, .errorRedirect "You can only edit birthdays that you have added.")
    ∧ delete store user rid
        = (store, .errorRedirect "You can only delete birthdays that you have added.") := by
  constructor <;> simp [edit, delete, hfind, howner, hadmin]

/-- Witness for the unauthorized-mutation theorem: user 2 attacking the
record owned by user 1. -/
theorem C6_unauthorized_mutation_rejected_witness :
    edit [exampleRecord 1] ⟨2, "mallory@example.com"⟩ 1 none .failure
        = ([exampleRecord 1],
           .errorRedirect "You can only edit birthdays that you have added.")
    ∧ delete [exampleRecord 1] ⟨2, "mallory@example.com"⟩ 1
        = ([exampleRecord 1],
           .errorRedirect "You can only delete birthdays that you have added.") :=
  C6_unauthorized_mutation_rejected [exampleRecord 1] ⟨2, "mallory@example.com"⟩ 1
    (exampleRecord 1) (by decide) (by decide) (by decide) none .failure

/-- Counterexample to C7 as frozen: a malformed date on `/add` does not
produce a warning with a redisplayed form — the uncaught `strptime`
`ValueError` aborts the request with a hard 500 error. -/
theorem C7_counterexample :
    add_birthday [] ⟨1, "alice@example.com"⟩ ⟨"Bob", "not-a-date", "", "", ""⟩
        .failure 7
      = ([], .serverError)
    ∧ parseDate "not-a-date" = none
    ∧ RouteResponse.serverError ≠ .renderForm := by
  refine ⟨by decide, by decide, by decide⟩

/-- C7 (amended): a malformed date on an add or edit submission never
mutates the committed store, and whenever control reaches the date
parse (the duplicate check on add, the 404 lookup and the ownership
check on edit all pass, and on add `get_coords` returned a pair) the
request dies with a hard 500 server error — no user-visible warning and
no form redisplay happen. -/
theorem C7_malformed_date_crashes (store : List Birthday) (user : User)
    (form : BirthdayForm) (geo : GeocodeResponse) (new_id rid : Nat)
    (hbad : parseDate form.dob = none) :
    (add_birthday store user form geo new_id).1 = store
    ∧ (edit store user rid (some form) geo).1 = store
    ∧ (∀ lat lon : Option Int, get_coords form.pob geo = .pair lat lon →
        ¬ (user.email ≠ ADMIN_EMAIL ∧
            (store.find? (fun b => b.user_id == user.id)).isSome) →
        (add_birthday store user form geo new_id).2 = .serverError)
    ∧ (∀ b : Birthday, store.find? (fun r => r.id == rid) = some b →
        ¬ (b.user_id ≠ user.id ∧ user.email ≠ ADMIN_EMAIL) →
        (edit store user rid (some form) geo).2 = .serverError) := by
  refine ⟨?_, ?_, ?_, ?_⟩
  · unfold add_birthday
    split
    · rfl
    · cases hgc : get_coords form.pob geo <;> simp [hbad]
  · unfold edit
    cases hf : store.find? (fun b => b.id == rid) with
    | none => rfl
    | some b =>
      simp only [hbad]
      split <;> rfl
  · intro lat lon hgc hnodup
    unfold add_birthday
    rw [if_neg hnodup]
    simp only [hgc, hbad]
  · intro b hf hown
    unfold edit
    simp [hf, hown, hbad]

/-- Witness for the malformed-date theorem at the concrete bad form. -/
theorem C7_malformed_date_crashes_witness :
    (add_birthday [] ⟨1, "alice@example.com"⟩ ⟨"Bob", "not-a-date", "", "", ""⟩
        .failure 7).1 = [] :=
  (C7_malformed_date_crashes [] ⟨1, "alice@example.com"⟩
    ⟨"Bob", "not-a-date", "", "", ""⟩ .failure 7 3 (by decide)).1

/-- C8: a non-admin who already owns a record is turned away by `/add`
with a warning and no new record; the admin email always reaches the
insert; and the "at most one record per non-admin account" bound is
preserved by the add route. -/
theorem C8_one_record_per_account (store : List Birthday) (user : User)
    (form : BirthdayForm) (geo : GeocodeResponse) (new_id : Nat) :
    (user.email ≠ ADMIN_EMAIL →
      (store.find? (fun b => b.user_id == user.id)).isSome →
        add_birthday store user form geo new_id
          = (store,
             .errorRedirect "You can only add one birthday to the board per account."))
    ∧ (∀ (lat lon : Option Int) (dob : PyDate), user.email = ADMIN_EMAIL →
        get_coords form.pob geo = .pair lat lon →
        parseDate form.dob = some dob →
        add_birthday store user form geo new_id
          = (store ++ [⟨new_id, form.name, dob, form.tob, form.pob, form.notes,
              lat, lon, user.id⟩],
             .successRedirect ("🎉 Birthday for " ++ form.name ++ " added!")))
    ∧ (user.email ≠ ADMIN_EMAIL →
        (store.filter (fun b => b.user_id == user.id)).length ≤ 1 →
        ((add_birthday store user form geo new_id).1.filter
            (fun b => b.user_id == user.id)).length ≤ 1) := by
  refine ⟨?_, ?_, ?_⟩
  · intro h1 h2
    unfold add_birthday
    rw [if_pos ⟨h1, h2⟩]
  · intro lat lon dob hadm hgc hpd
    unfold add_birthday
    rw [if_neg (by simp [hadm])]
    simp only [hgc, hpd]
  · intro h1 hlen
    by_cases hdup : (store.find? (fun b => b.user_id == user.id)).isSome
    · unfold add_birthday
      rw [if_pos ⟨h1, hdup⟩]
      exact hlen
    · have hnone : store.find? (fun b => b.user_id == user.id) = none := by
        cases hf : store.find? (fun b => b.user_id == user.id) with
        | none => rfl
        | some b => rw [hf] at hdup; simp at hdup
      have hfilnil : store.filter (fun b => b.user_id == user.id) = [] := by
        rw [List.filter_eq_nil_iff]
        exact List.find?_eq_none.mp hnone
      unfold add_birthday
      rw [if_neg (fun hc => hdup hc.2)]
      cases hgc : get_coords form.pob geo with
      | bareNone => simp [hfilnil]
      | pair lat lon =>
        cases hpd : parseDate form.dob with
        | none => simp [hfilnil]
        | some dob => simp [List.filter_append, hfilnil]

/-- Witness for the one-record rule: non-admin user 1 already owning
`exampleRecord 1` is rejected. -/
theorem C8_one_record_per_account_witness :
    add_birthday [exampleRecord 1] ⟨1, "alice@example.com"⟩
        ⟨"B", "2024-01-01", "", "", ""⟩ .failure 7
      = ([exampleRecord 1],
         .errorRedirect "You can only add one birthday to the board per account.") :=
  (C8_one_record_per_account [exampleRecord 1] ⟨1, "alice@example.com"⟩
    ⟨"B", "2024-01-01", "", "", ""⟩ .failure 7).1 (by decide) (by decide)

/-- C10: a user who is neither the record's creator nor the admin asking
for `/fun-facts/<id>` gets an error flash and a redirect to the board,
with the same outcome for every state of the Gemini client and every
possible service reply — so no fact generation influences (or is needed
for) the response. -/
theorem C10_fun_facts_authorization (store : List Birthday) (user : User)
    (rid : Nat) (b : Birthday)
    (hfind : store.find? (fun r => r.id == rid) = some b)
    (howner : b.user_id ≠ user.id) (hadmin : user.email ≠ ADMIN_EMAIL) :
    ∀ (cfg : Bool) (gemini : GeminiResponse),
      fun_facts store user rid cfg gemini
        = .errorRedirect "You can only view fun facts for birthdays you have added." := by
  intro cfg gemini
  simp [fun_facts, hfind, howner, hadmin]

/-- Witness for the fun-facts authorization theorem. -/
theorem C10_fun_facts_authorization_witness :
    fun_facts [exampleRecord 1] ⟨2, "mallory@example.com"⟩ 1 true .failure
      = .errorRedirect "You can only view fun facts for birthdays you have added." :=
  C10_fun_facts_authorization [exampleRecord 1] ⟨2, "mallory@example.com"⟩ 1
    (exampleRecord 1) (by decide) (by decide) (by decide) true .failure

end BirthdayApp
